import Mathlib

/-!
Verification of the robotaxi unit-economics engine.

The engine consists of three pure computations in the main application
module: `calculateMetrics`, `breakEvenUtilizationPercent` and the chart
sampler `chartData`.  Numbers are modelled by `ℚ`; the JavaScript
`Infinity` / `-Infinity` sentinels produced by the metrics function are
modelled by the explicit sum type `ExtQ`.  The chart loop accumulates its
x value by repeated addition of the step; for the three built-in ranges
(steps 2 and 1.5 from integer or half-integer starts) every intermediate
value is exactly representable in binary floating point, so the rational
model coincides with the source behaviour.
-/

/-- JavaScript `Math.min` on two (non-NaN) finite numbers, written as an
explicit conditional so that concrete instances evaluate in the kernel. -/
def qmin (a b : ℚ) : ℚ := if a ≤ b then a else b

lemma qmin_eq_min (a b : ℚ) : qmin a b = min a b := (min_def a b).symm

structure SimulationInputs where
  fleetSize : ℚ
  vehiclesPerOperator : ℚ
  vehicleCost : ℚ
  opsHoursPerDay : ℚ
  deadheadPercent : ℚ
  variableCostPerMile : ℚ
  revenuePerMile : ℚ
  utilizationPercent : ℚ
deriving DecidableEq

/-- Extended rationals: a finite value or one of the two IEEE infinities
that `calculateMetrics` uses as sentinels. -/
inductive ExtQ where
  | ofQ (q : ℚ)
  | posInf
  | negInf
deriving DecidableEq

/-- Comparison `m < r` of a sentinel value with a finite threshold,
as JavaScript `<` behaves on `Infinity` / `-Infinity`. -/
def ExtQ.ltQ : ExtQ → ℚ → Bool
  | .ofQ q, r => decide (q < r)
  | .posInf, _ => false
  | .negInf, _ => true

/-- Comparison `m ≤ r` of a sentinel value with a finite threshold. -/
def ExtQ.leQ : ExtQ → ℚ → Bool
  | .ofQ q, r => decide (q ≤ r)
  | .posInf, _ => false
  | .negInf, _ => true

/-- `Math.min` of a sentinel value and a finite value. -/
def ExtQ.minQ : ExtQ → ℚ → ExtQ
  | .ofQ q, r => .ofQ (qmin q r)
  | .posInf, r => .ofQ r
  | .negInf, _ => .negInf

structure Metrics where
  totalCostPerMile : ExtQ
  marginPerMile : ExtQ
deriving DecidableEq

-- Constants (source: `operatorCostPerHour`, `vehicleLifetimeDays`, `maxMilesPerDay`)
def operatorCostPerHour : ℚ := 40
def vehicleLifetimeDays : ℚ := 1825
def maxMilesPerDay : ℚ := 300

-- The local bindings of `calculateMetrics`, hoisted to named definitions so
-- that they can be shared with `breakEvenUtilizationPercent`, which computes
-- the same expressions.
def vehicleCostPerDay (p : SimulationInputs) : ℚ :=
  p.vehicleCost / vehicleLifetimeDays

def teleopsAndOpsPerDay (p : SimulationInputs) : ℚ :=
  (operatorCostPerHour * p.opsHoursPerDay) / p.vehiclesPerOperator

def fixedDailyCost (p : SimulationInputs) : ℚ :=
  vehicleCostPerDay p + teleopsAndOpsPerDay p

def utilizationDecimal (p : SimulationInputs) : ℚ :=
  p.utilizationPercent / 100

def deadheadDecimal (p : SimulationInputs) : ℚ :=
  qmin (p.deadheadPercent / 100) (95 / 100 : ℚ)

def milesPerDay (p : SimulationInputs) : ℚ :=
  maxMilesPerDay * utilizationDecimal p

def paidMilesPerDay (p : SimulationInputs) : ℚ :=
  milesPerDay p * (1 - deadheadDecimal p)

/-- The economic model (source: `calculateMetrics`). -/
def calculateMetrics (p : SimulationInputs) : Metrics :=
  if paidMilesPerDay p ≤ 0 then
    { totalCostPerMile := .posInf, marginPerMile := .negInf }
  else
    let totalCostPerMile := fixedDailyCost p / paidMilesPerDay p + p.variableCostPerMile
    { totalCostPerMile := .ofQ totalCostPerMile
      marginPerMile := .ofQ (p.revenuePerMile - totalCostPerMile) }

def paidMilesRatio (p : SimulationInputs) : ℚ :=
  1 - deadheadDecimal p

def netRevenuePerMile (p : SimulationInputs) : ℚ :=
  p.revenuePerMile - p.variableCostPerMile

/-- Break-even utilization (source: `breakEvenUtilizationPercent`). -/
def breakEvenUtilizationPercent (i : SimulationInputs) : Option ℚ :=
  if netRevenuePerMile i ≤ 0 ∨ paidMilesRatio i ≤ 0 then none
  else
    let breakEvenUtilization :=
      fixedDailyCost i / (maxMilesPerDay * paidMilesRatio i * netRevenuePerMile i)
    let breakEvenPercent := breakEvenUtilization * 100
    if 0 ≤ breakEvenPercent ∧ breakEvenPercent ≤ 100 then some breakEvenPercent
    else none

/-- Profitability label attached to the advisory-request snapshot
(source: the `status` field of the chat request body). -/
def status (m : ExtQ) : String :=
  if m.ltQ 0 then "Losing"
  else if m.leQ (1 / 4) then "Break-even"
  else "Profitable"

inductive XAxisVariable where
  | utilization
  | deadhead
  | vehiclesPerOperator
deriving DecidableEq

structure SweepRange where
  lo : ℚ
  hi : ℚ
  step : ℚ
deriving DecidableEq

/-- The `{min, max, step}` range the chart sweeps for each x-axis variable. -/
def sweepRange : XAxisVariable → SweepRange
  | .utilization => ⟨10, 90, 2⟩
  | .deadhead => ⟨10, 70, 3 / 2⟩
  | .vehiclesPerOperator => ⟨2, 60, 3 / 2⟩

/-- Substitute the swept value into a copy of the current inputs. -/
def substituteSwept (v : XAxisVariable) (value : ℚ) (i : SimulationInputs) :
    SimulationInputs :=
  match v with
  | .utilization => { i with utilizationPercent := value }
  | .deadhead => { i with deadheadPercent := value }
  | .vehiclesPerOperator => { i with vehiclesPerOperator := value }

/-- The live value of the swept variable in the current inputs. -/
def liveValue (v : XAxisVariable) (i : SimulationInputs) : ℚ :=
  match v with
  | .utilization => i.utilizationPercent
  | .deadhead => i.deadheadPercent
  | .vehiclesPerOperator => i.vehiclesPerOperator

/-- The x values visited by the loop
`for (let value = lo; value <= hi; value += step)`, with a fuel bound on the
iteration count (52 suffices for all three built-in ranges). -/
def sweepValues : Nat → ℚ → ℚ → ℚ → List ℚ
  | 0, _, _, _ => []
  | fuel + 1, value, hi, step =>
    if value ≤ hi then value :: sweepValues fuel (value + step) hi step
    else []

structure DataPoint where
  x : ℚ
  totalCostPerMile : ExtQ
  isCurrentPoint : Bool
deriving DecidableEq

/-- The chart sampler (source: `chartData`): one data point per loop step,
with the display value capped at 10 and the current-configuration flag set
when x is within half a step of the live value. -/
def chartData (i : SimulationInputs) (v : XAxisVariable) : List DataPoint :=
  let r := sweepRange v
  (sweepValues 52 r.lo r.hi r.step).map fun value =>
    let testInputs := substituteSwept v value i
    let metrics := calculateMetrics testInputs
    { x := value
      totalCostPerMile := metrics.totalCostPerMile.minQ 10
      isCurrentPoint := decide (|value - liveValue v i| < r.step / 2) }

/-- The slider ranges of the data model (§3 of the spec): every
user-adjustable field stays within its fixed range. -/
abbrev InRange (i : SimulationInputs) : Prop :=
  500 ≤ i.fleetSize ∧ i.fleetSize ≤ 10000 ∧
  2 ≤ i.vehiclesPerOperator ∧ i.vehiclesPerOperator ≤ 60 ∧
  50000 ≤ i.vehicleCost ∧ i.vehicleCost ≤ 300000 ∧
  8 ≤ i.opsHoursPerDay ∧ i.opsHoursPerDay ≤ 24 ∧
  10 ≤ i.deadheadPercent ∧ i.deadheadPercent ≤ 70 ∧
  1 / 5 ≤ i.variableCostPerMile ∧ i.variableCostPerMile ≤ 2 ∧
  1 ≤ i.revenuePerMile ∧ i.revenuePerMile ≤ 5 ∧
  10 ≤ i.utilizationPercent ∧ i.utilizationPercent ≤ 90

/-- The default inputs and the preset named Scaling city. -/
def scalingCity : SimulationInputs :=
  { fleetSize := 2000
    vehiclesPerOperator := 5
    vehicleCost := 170000
    opsHoursPerDay := 20
    deadheadPercent := 44
    variableCostPerMile := 3 / 5
    revenuePerMile := 5 / 2
    utilizationPercent := 40 }

-- Helper lemmas shared by several developments below.

lemma deadheadDecimal_le (p : SimulationInputs) : deadheadDecimal p ≤ 95 / 100 := by
  unfold deadheadDecimal
  rw [qmin_eq_min]
  exact min_le_right _ _

lemma paidMilesRatio_ge (p : SimulationInputs) : 1 / 20 ≤ paidMilesRatio p := by
  have h := deadheadDecimal_le p
  unfold paidMilesRatio
  linarith

lemma fixedDailyCost_pos (i : SimulationInputs) (h : InRange i) :
    0 < fixedDailyCost i := by
  obtain ⟨-, -, hv1, -, hc1, -, ho1, -, -⟩ := h
  have h1 : 0 < vehicleCostPerDay i := by
    unfold vehicleCostPerDay vehicleLifetimeDays
    positivity
  have h2 : 0 < teleopsAndOpsPerDay i := by
    unfold teleopsAndOpsPerDay operatorCostPerHour
    have : (0 : ℚ) < i.opsHoursPerDay := by linarith
    have : (0 : ℚ) < i.vehiclesPerOperator := by linarith
    positivity
  unfold fixedDailyCost
  linarith

lemma calculateMetrics_of_pos (p : SimulationInputs) (h : 0 < paidMilesPerDay p) :
    calculateMetrics p =
      { totalCostPerMile := .ofQ (fixedDailyCost p / paidMilesPerDay p + p.variableCostPerMile)
        marginPerMile := .ofQ (p.revenuePerMile -
          (fixedDailyCost p / paidMilesPerDay p + p.variableCostPerMile)) } := by
  unfold calculateMetrics
  rw [if_neg (not_le.mpr h)]

lemma calculateMetrics_of_nonpos (p : SimulationInputs) (h : paidMilesPerDay p ≤ 0) :
    calculateMetrics p = { totalCostPerMile := .posInf, marginPerMile := .negInf } := by
  unfold calculateMetrics
  rw [if_pos h]

/-- Claim C1: `calculateMetrics` satisfies the spec's step-by-step contract:
with the constants 40, 1825 and 300 it forms
fixedDailyCost = vehicleCost/1825 + 40*opsHoursPerDay/vehiclesPerOperator,
clamps the deadhead share at 0.95, computes
paidMilesPerDay = 300*(utilizationPercent/100)*(1 - deadheadDecimal);
when paidMilesPerDay ≤ 0 it returns the +∞/−∞ sentinels, otherwise
totalCostPerMile = fixedDailyCost/paidMilesPerDay + variableCostPerMile and
marginPerMile = revenuePerMile − totalCostPerMile. -/
theorem calculateMetrics_contract (p : SimulationInputs) :
    (300 * (p.utilizationPercent / 100) *
        (1 - qmin (p.deadheadPercent / 100) (95 / 100 : ℚ)) ≤ 0 →
      calculateMetrics p = { totalCostPerMile := .posInf, marginPerMile := .negInf })
    ∧ (0 < 300 * (p.utilizationPercent / 100) *
        (1 - qmin (p.deadheadPercent / 100) (95 / 100 : ℚ)) →
      calculateMetrics p =
        { totalCostPerMile := .ofQ
            ((p.vehicleCost / 1825 + 40 * p.opsHoursPerDay / p.vehiclesPerOperator) /
              (300 * (p.utilizationPercent / 100) *
                (1 - qmin (p.deadheadPercent / 100) (95 / 100 : ℚ))) +
              p.variableCostPerMile)
          marginPerMile := .ofQ (p.revenuePerMile -
            ((p.vehicleCost / 1825 + 40 * p.opsHoursPerDay / p.vehiclesPerOperator) /
              (300 * (p.utilizationPercent / 100) *
                (1 - qmin (p.deadheadPercent / 100) (95 / 100 : ℚ))) +
              p.variableCostPerMile)) }) := by
  have hpaid : paidMilesPerDay p =
      300 * (p.utilizationPercent / 100) *
        (1 - qmin (p.deadheadPercent / 100) (95 / 100 : ℚ)) := by
    unfold paidMilesPerDay milesPerDay utilizationDecimal deadheadDecimal maxMilesPerDay
    ring_nf
  have hfix : fixedDailyCost p =
      p.vehicleCost / 1825 + 40 * p.opsHoursPerDay / p.vehiclesPerOperator := by
    unfold fixedDailyCost vehicleCostPerDay teleopsAndOpsPerDay
      vehicleLifetimeDays operatorCostPerHour
    ring_nf
  constructor
  · intro h
    exact calculateMetrics_of_nonpos p (by rw [hpaid]; exact h)
  · intro h
    rw [calculateMetrics_of_pos p (by rw [hpaid]; exact h), hpaid, hfix]

/-- Witness for C1: both branches of the contract evaluated at concrete
inputs (zero utilization for the sentinel branch, the default preset for the
finite branch). -/
theorem calculateMetrics_contract_witness :
    calculateMetrics { scalingCity with utilizationPercent := 0 } =
      { totalCostPerMile := .posInf, marginPerMile := .negInf }
    ∧ calculateMetrics scalingCity =
      { totalCostPerMile := .ofQ
          ((scalingCity.vehicleCost / 1825 +
              40 * scalingCity.opsHoursPerDay / scalingCity.vehiclesPerOperator) /
            (300 * (scalingCity.utilizationPercent / 100) *
              (1 - qmin (scalingCity.deadheadPercent / 100) (95 / 100 : ℚ))) +
            scalingCity.variableCostPerMile)
        marginPerMile := .ofQ (scalingCity.revenuePerMile -
          ((scalingCity.vehicleCost / 1825 +
              40 * scalingCity.opsHoursPerDay / scalingCity.vehiclesPerOperator) /
            (300 * (scalingCity.utilizationPercent / 100) *
              (1 - qmin (scalingCity.deadheadPercent / 100) (95 / 100 : ℚ))) +
            scalingCity.variableCostPerMile)) } :=
  ⟨(calculateMetrics_contract { scalingCity with utilizationPercent := 0 }).1
      (by norm_num [scalingCity, qmin]),
   (calculateMetrics_contract scalingCity).2 (by norm_num [scalingCity, qmin])⟩

/-- The spec's closed-form break-even percentage:
100 * fixedDailyCost / (maxMilesPerDay * (1 - deadheadDecimal) *
(revenuePerMile - variableCostPerMile)). -/
def specBreakEvenPercent (i : SimulationInputs) : ℚ :=
  100 * fixedDailyCost i /
    (maxMilesPerDay * paidMilesRatio i * (i.revenuePerMile - i.variableCostPerMile))

/-- A minimal record used to instantiate hypotheses at concrete inputs. -/
def unitFleet : SimulationInputs :=
  { fleetSize := 1
    vehiclesPerOperator := 1
    vehicleCost := 0
    opsHoursPerDay := 1
    deadheadPercent := 0
    variableCostPerMile := 0
    revenuePerMile := 1
    utilizationPercent := 50 }

lemma breakEvenPercent_eq (i : SimulationInputs) :
    fixedDailyCost i / (maxMilesPerDay * paidMilesRatio i * netRevenuePerMile i) * 100 =
      specBreakEvenPercent i := by
  unfold specBreakEvenPercent netRevenuePerMile
  ring

lemma netRevenue_nonpos_iff (i : SimulationInputs) :
    netRevenuePerMile i ≤ 0 ↔ i.revenuePerMile ≤ i.variableCostPerMile := by
  unfold netRevenuePerMile
  constructor <;> intro h <;> linarith

lemma breakEven_eq (i : SimulationInputs) :
    breakEvenUtilizationPercent i =
      if netRevenuePerMile i ≤ 0 ∨ paidMilesRatio i ≤ 0 then none
      else if 0 ≤ specBreakEvenPercent i ∧ specBreakEvenPercent i ≤ 100 then
        some (specBreakEvenPercent i)
      else none := by
  simp only [breakEvenUtilizationPercent]
  rw [breakEvenPercent_eq]

lemma breakEven_none_iff (i : SimulationInputs) :
    breakEvenUtilizationPercent i = none ↔
      i.revenuePerMile ≤ i.variableCostPerMile ∨ paidMilesRatio i ≤ 0 ∨
      specBreakEvenPercent i < 0 ∨ 100 < specBreakEvenPercent i := by
  rw [breakEven_eq]
  split_ifs with h1 h2
  · simp only [true_iff]
    rcases h1 with h | h
    · exact Or.inl ((netRevenue_nonpos_iff i).mp h)
    · exact Or.inr (Or.inl h)
  · push_neg at h1
    simp only [reduceCtorEq, false_iff]
    push_neg
    refine ⟨?_, ?_, h2.1, h2.2⟩
    · have := h1.1
      unfold netRevenuePerMile at this
      linarith
    · linarith [h1.2]
  · push_neg at h1 h2
    simp only [true_iff]
    by_cases h3 : 0 ≤ specBreakEvenPercent i
    · exact Or.inr (Or.inr (Or.inr (h2 h3)))
    · push_neg at h3
      exact Or.inr (Or.inr (Or.inl h3))

lemma breakEven_some (i : SimulationInputs)
    (h1 : i.variableCostPerMile < i.revenuePerMile) (h2 : 0 < paidMilesRatio i)
    (h3 : 0 ≤ specBreakEvenPercent i) (h4 : specBreakEvenPercent i ≤ 100) :
    breakEvenUtilizationPercent i = some (specBreakEvenPercent i) := by
  rw [breakEven_eq, if_neg, if_pos ⟨h3, h4⟩]
  push_neg
  refine ⟨?_, h2⟩
  unfold netRevenuePerMile
  linarith

/-- Claim C2: `breakEvenUtilizationPercent` returns the spec's percentage
100 * fixedDailyCost / (maxMilesPerDay * (1 - deadheadDecimal) *
(revenuePerMile - variableCostPerMile)) whenever none of the null guards
fires and that value lies in [0, 100]; it returns null exactly when
revenuePerMile ≤ variableCostPerMile, or the paid-miles ratio is
non-positive, or the computed percentage falls outside [0, 100]. -/
theorem breakEven_contract (i : SimulationInputs) :
    (breakEvenUtilizationPercent i = none ↔
      i.revenuePerMile ≤ i.variableCostPerMile ∨ paidMilesRatio i ≤ 0 ∨
      specBreakEvenPercent i < 0 ∨ 100 < specBreakEvenPercent i)
    ∧ (i.variableCostPerMile < i.revenuePerMile → 0 < paidMilesRatio i →
      0 ≤ specBreakEvenPercent i → specBreakEvenPercent i ≤ 100 →
      breakEvenUtilizationPercent i = some (specBreakEvenPercent i)) :=
  ⟨breakEven_none_iff i, fun h1 h2 h3 h4 => breakEven_some i h1 h2 h3 h4⟩

/-- Witness for C2: at `unitFleet` all four hypotheses of the value case
hold and the function returns the spec's percentage (40/3). -/
theorem breakEven_contract_witness :
    breakEvenUtilizationPercent unitFleet = some (specBreakEvenPercent unitFleet)
    ∧ specBreakEvenPercent unitFleet = 40 / 3 := by
  constructor
  · exact (breakEven_contract unitFleet).2
      (by norm_num [unitFleet])
      (by norm_num [paidMilesRatio, deadheadDecimal, qmin, unitFleet])
      (by norm_num [specBreakEvenPercent, fixedDailyCost, vehicleCostPerDay,
          teleopsAndOpsPerDay, paidMilesRatio, deadheadDecimal, qmin,
          operatorCostPerHour, vehicleLifetimeDays, maxMilesPerDay, unitFleet])
      (by norm_num [specBreakEvenPercent, fixedDailyCost, vehicleCostPerDay,
          teleopsAndOpsPerDay, paidMilesRatio, deadheadDecimal, qmin,
          operatorCostPerHour, vehicleLifetimeDays, maxMilesPerDay, unitFleet])
  · norm_num [specBreakEvenPercent, fixedDailyCost, vehicleCostPerDay,
      teleopsAndOpsPerDay, paidMilesRatio, deadheadDecimal, qmin,
      operatorCostPerHour, vehicleLifetimeDays, maxMilesPerDay, unitFleet]

/-- Claim C10: the non-positive paid-miles-ratio guard in
`breakEvenUtilizationPercent` is unreachable: the ratio is always at least
0.05, so a null result only arises from revenuePerMile ≤ variableCostPerMile
or from the computed percentage lying outside [0, 100]. -/
theorem paidMilesRatio_guard_unreachable (i : SimulationInputs) :
    1 / 20 ≤ paidMilesRatio i
    ∧ (breakEvenUtilizationPercent i = none →
      i.revenuePerMile ≤ i.variableCostPerMile ∨
      specBreakEvenPercent i < 0 ∨ 100 < specBreakEvenPercent i) := by
  refine ⟨paidMilesRatio_ge i, fun h => ?_⟩
  rcases (breakEven_none_iff i).mp h with h' | h' | h' | h'
  · exact Or.inl h'
  · exact absurd h' (by linarith [paidMilesRatio_ge i])
  · exact Or.inr (Or.inl h')
  · exact Or.inr (Or.inr h')

/-- Witness for C10: a record with revenue below variable cost makes the
function return null, and the disjunction then holds. -/
theorem paidMilesRatio_guard_unreachable_witness :
    { unitFleet with variableCostPerMile := 2 }.revenuePerMile ≤
        { unitFleet with variableCostPerMile := 2 }.variableCostPerMile ∨
      specBreakEvenPercent { unitFleet with variableCostPerMile := 2 } < 0 ∨
      100 < specBreakEvenPercent { unitFleet with variableCostPerMile := 2 } :=
  (paidMilesRatio_guard_unreachable { unitFleet with variableCostPerMile := 2 }).2
    (by norm_num [breakEvenUtilizationPercent, netRevenuePerMile, unitFleet])

/-- Claim C3: for inputs within the data-model ranges (hence with positive
fixed daily cost), `totalCostPerMile` is at least `variableCostPerMile`
whenever paid miles per day is positive, and is the +∞ sentinel whenever
paid miles per day is non-positive. -/
theorem totalCost_ge_variableCost (i : SimulationInputs) (h : InRange i) :
    (0 < paidMilesPerDay i →
      ∃ t, (calculateMetrics i).totalCostPerMile = .ofQ t ∧ i.variableCostPerMile ≤ t)
    ∧ (paidMilesPerDay i ≤ 0 → (calculateMetrics i).totalCostPerMile = .posInf) := by
  constructor
  · intro hp
    refine ⟨fixedDailyCost i / paidMilesPerDay i + i.variableCostPerMile, ?_, ?_⟩
    · rw [calculateMetrics_of_pos i hp]
    · have hf : 0 < fixedDailyCost i := fixedDailyCost_pos i h
      have : 0 < fixedDailyCost i / paidMilesPerDay i := div_pos hf hp
      linarith
  · intro hp
    rw [calculateMetrics_of_nonpos i hp]

/-- Witness for C3: the default preset is in range, has positive paid miles
per day, and its cost per mile is at least its variable cost per mile. -/
theorem totalCost_ge_variableCost_witness :
    ∃ t, (calculateMetrics scalingCity).totalCostPerMile = .ofQ t ∧
      scalingCity.variableCostPerMile ≤ t :=
  (totalCost_ge_variableCost scalingCity (by norm_num [InRange, scalingCity])).1
    (by norm_num [paidMilesPerDay, milesPerDay, utilizationDecimal,
      deadheadDecimal, qmin, maxMilesPerDay, scalingCity])

lemma scalingCity_metrics :
    calculateMetrics scalingCity =
      { totalCostPerMile := .ofQ (1594 / 365), marginPerMile := .ofQ (-1363 / 730) } := by
  norm_num [calculateMetrics, fixedDailyCost, vehicleCostPerDay, teleopsAndOpsPerDay,
    paidMilesPerDay, milesPerDay, utilizationDecimal, deadheadDecimal, qmin,
    operatorCostPerHour, vehicleLifetimeDays, maxMilesPerDay, scalingCity]

/-- Counterexample for C9: the scenario's totalCostPerMile is 1594/365
(≈ 4.37), which does not lie within the claimed 2.00 to 4.00 display
range. -/
theorem scenario_cex :
    (calculateMetrics scalingCity).totalCostPerMile = .ofQ (1594 / 365)
    ∧ ¬ ((1594 : ℚ) / 365 ≤ 4) := by
  refine ⟨?_, by norm_num⟩
  rw [scalingCity_metrics]

/-- Claim C9 as amended: for the Scaling-city scenario, fixedDailyCost
equals 170000/1825 + 160, paidMilesPerDay equals 67.2, totalCostPerMile is
approximately 4.37 (above, not inside, the 2.00 to 4.00 range),
marginPerMile is approximately -1.87 and negative, so the derived status is
Losing. -/
theorem scenario_amended :
    fixedDailyCost scalingCity = 170000 / 1825 + 160
    ∧ paidMilesPerDay scalingCity = 336 / 5
    ∧ calculateMetrics scalingCity =
        { totalCostPerMile := .ofQ (1594 / 365), marginPerMile := .ofQ (-1363 / 730) }
    ∧ (436 : ℚ) / 100 < 1594 / 365 ∧ (1594 : ℚ) / 365 < 438 / 100
    ∧ (4 : ℚ) < 1594 / 365
    ∧ (-188 : ℚ) / 100 < -1363 / 730 ∧ (-1363 : ℚ) / 730 < -186 / 100
    ∧ (-1363 : ℚ) / 730 < 0
    ∧ status (calculateMetrics scalingCity).marginPerMile = "Losing" := by
  refine ⟨?_, ?_, scalingCity_metrics, by norm_num, by norm_num, by norm_num,
    by norm_num, by norm_num, by norm_num, ?_⟩
  · norm_num [fixedDailyCost, vehicleCostPerDay, teleopsAndOpsPerDay,
      operatorCostPerHour, vehicleLifetimeDays, scalingCity]
  · norm_num [paidMilesPerDay, milesPerDay, utilizationDecimal, deadheadDecimal,
      qmin, maxMilesPerDay, scalingCity]
  · rw [scalingCity_metrics]
    norm_num [status, ExtQ.ltQ]

-- Record-update facts used by the monotonicity and round-trip proofs; all
-- hold by definitional unfolding.

lemma fixed_update_util (i : SimulationInputs) (u : ℚ) :
    fixedDailyCost { i with utilizationPercent := u } = fixedDailyCost i := rfl

lemma fixed_update_dead (i : SimulationInputs) (d : ℚ) :
    fixedDailyCost { i with deadheadPercent := d } = fixedDailyCost i := rfl

lemma paid_update_util (i : SimulationInputs) (u : ℚ) :
    paidMilesPerDay { i with utilizationPercent := u } =
      maxMilesPerDay * (u / 100) * paidMilesRatio i := rfl

lemma paid_update_dead (i : SimulationInputs) (d : ℚ) :
    paidMilesPerDay { i with deadheadPercent := d } =
      maxMilesPerDay * (i.utilizationPercent / 100) *
        (1 - qmin (d / 100) (95 / 100 : ℚ)) := rfl

lemma qmin_of_le {a b : ℚ} (h : a ≤ b) : qmin a b = a := if_pos h

/-- Counterexample for C4: with zero vehicle cost and zero ops hours the
fixed daily cost is 0, the break-even percent returned is 0, and
substituting utilization 0 puts the metrics on the sentinel branch, so the
margin is -∞, not 0. -/
theorem breakEven_roundTrip_cex :
    breakEvenUtilizationPercent { unitFleet with opsHoursPerDay := 0 } = some 0
    ∧ (calculateMetrics
        { { unitFleet with opsHoursPerDay := 0 } with utilizationPercent := 0 }).marginPerMile ≠
      ExtQ.ofQ 0 := by
  constructor
  · norm_num [breakEven_eq, specBreakEvenPercent, fixedDailyCost, vehicleCostPerDay,
      teleopsAndOpsPerDay, paidMilesRatio, deadheadDecimal, netRevenuePerMile, qmin,
      maxMilesPerDay, vehicleLifetimeDays, operatorCostPerHour, unitFleet]
  · norm_num [calculateMetrics, paidMilesPerDay, milesPerDay, utilizationDecimal,
      deadheadDecimal, qmin, maxMilesPerDay, unitFleet]
    simp

/-- Claim C4 as amended: for every record on which
`breakEvenUtilizationPercent` returns a non-null percent p AND whose fixed
daily cost is non-zero (as the data-model ranges guarantee), substituting
utilizationPercent = p into `calculateMetrics` yields marginPerMile exactly
0 in rational arithmetic. -/
theorem breakEven_roundTrip (i : SimulationInputs) (p : ℚ)
    (h : breakEvenUtilizationPercent i = some p) (hf : fixedDailyCost i ≠ 0) :
    (calculateMetrics { i with utilizationPercent := p }).marginPerMile = ExtQ.ofQ 0 := by
  rw [breakEven_eq] at h
  split_ifs at h with h1 h2
  push_neg at h1
  have hp : p = specBreakEvenPercent i := (Option.some.inj h).symm
  have hnet : 0 < netRevenuePerMile i := h1.1
  have hratio : 0 < paidMilesRatio i := h1.2
  have hDpos : 0 < maxMilesPerDay * paidMilesRatio i *
      (i.revenuePerMile - i.variableCostPerMile) := by
    have : netRevenuePerMile i = i.revenuePerMile - i.variableCostPerMile := rfl
    rw [this] at hnet
    unfold maxMilesPerDay
    positivity
  have hfnn : 0 ≤ fixedDailyCost i := by
    by_contra hneg
    push_neg at hneg
    have hlt : specBreakEvenPercent i < 0 := by
      unfold specBreakEvenPercent
      apply div_neg_of_neg_of_pos _ hDpos
      linarith
    rw [hp] at *
    linarith [h2.1]
  have hfpos : 0 < fixedDailyCost i := lt_of_le_of_ne hfnn (Ne.symm hf)
  have hpaid : paidMilesPerDay { i with utilizationPercent := p } =
      fixedDailyCost i / netRevenuePerMile i := by
    rw [paid_update_util, hp]
    unfold specBreakEvenPercent maxMilesPerDay
    have hr0 : paidMilesRatio i ≠ 0 := ne_of_gt hratio
    have hn0 : netRevenuePerMile i ≠ 0 := ne_of_gt hnet
    have hnet_eq : i.revenuePerMile - i.variableCostPerMile = netRevenuePerMile i := rfl
    rw [hnet_eq]
    field_simp
    ring
  have hpaidpos : 0 < paidMilesPerDay { i with utilizationPercent := p } := by
    rw [hpaid]
    exact div_pos hfpos hnet
  rw [calculateMetrics_of_pos _ hpaidpos]
  have hmargin :
      { i with utilizationPercent := p }.revenuePerMile -
        (fixedDailyCost { i with utilizationPercent := p } /
            paidMilesPerDay { i with utilizationPercent := p } +
          { i with utilizationPercent := p }.variableCostPerMile) = 0 := by
    show i.revenuePerMile - (fixedDailyCost i / paidMilesPerDay { i with utilizationPercent := p } + i.variableCostPerMile) = 0
    rw [hpaid, div_div_eq_mul_div, mul_div_assoc]
    rw [show fixedDailyCost i * (netRevenuePerMile i / fixedDailyCost i) =
      netRevenuePerMile i from by field_simp]
    unfold netRevenuePerMile
    ring
  rw [hmargin]

/-- Witness for C4: at `unitFleet` the break-even percent 40/3 is returned,
the fixed daily cost is 40 ≠ 0, and recomputing the metrics at utilization
40/3 gives margin exactly 0. -/
theorem breakEven_roundTrip_witness :
    (calculateMetrics
      { unitFleet with utilizationPercent := specBreakEvenPercent unitFleet }).marginPerMile =
      ExtQ.ofQ 0 :=
  breakEven_roundTrip unitFleet (specBreakEvenPercent unitFleet)
    (breakEven_some unitFleet (by norm_num [unitFleet])
      (by norm_num [paidMilesRatio, deadheadDecimal, qmin, unitFleet])
      (by norm_num [specBreakEvenPercent, fixedDailyCost, vehicleCostPerDay,
        teleopsAndOpsPerDay, paidMilesRatio, deadheadDecimal, qmin,
        operatorCostPerHour, vehicleLifetimeDays, maxMilesPerDay, unitFleet])
      (by norm_num [specBreakEvenPercent, fixedDailyCost, vehicleCostPerDay,
        teleopsAndOpsPerDay, paidMilesRatio, deadheadDecimal, qmin,
        operatorCostPerHour, vehicleLifetimeDays, maxMilesPerDay, unitFleet]))
    (by norm_num [fixedDailyCost, vehicleCostPerDay, teleopsAndOpsPerDay,
      operatorCostPerHour, vehicleLifetimeDays, unitFleet])

/-- Claim C5: with all other fields fixed within the data-model ranges,
increasing utilizationPercent strictly decreases totalCostPerMile (both
records then sit on the finite branch with positive paid miles, and the
deadhead share is fixed below the 95% cap). -/
theorem totalCost_strictAnti_utilization (i : SimulationInputs) (u1 u2 : ℚ)
    (h1 : InRange { i with utilizationPercent := u1 })
    (h2 : InRange { i with utilizationPercent := u2 })
    (hlt : u1 < u2) :
    ∃ t1 t2,
      (calculateMetrics { i with utilizationPercent := u1 }).totalCostPerMile = .ofQ t1
      ∧ (calculateMetrics { i with utilizationPercent := u2 }).totalCostPerMile = .ofQ t2
      ∧ t2 < t1 := by
  have hfix : 0 < fixedDailyCost i :=
    fixedDailyCost_pos { i with utilizationPercent := u1 } h1
  obtain ⟨-, -, -, -, -, -, -, -, -, -, -, -, -, -, hu1, -⟩ := h1
  obtain ⟨-, -, -, -, -, -, -, -, -, -, -, -, -, -, hu2, -⟩ := h2
  have hu1' : (10 : ℚ) ≤ u1 := hu1
  have hu2' : (10 : ℚ) ≤ u2 := hu2
  have hratio : (1 / 20 : ℚ) ≤ paidMilesRatio i := paidMilesRatio_ge i
  have hp1 : 0 < paidMilesPerDay { i with utilizationPercent := u1 } := by
    rw [paid_update_util]
    unfold maxMilesPerDay
    nlinarith
  have hp2 : 0 < paidMilesPerDay { i with utilizationPercent := u2 } := by
    rw [paid_update_util]
    unfold maxMilesPerDay
    nlinarith
  have hpp : paidMilesPerDay { i with utilizationPercent := u1 } <
      paidMilesPerDay { i with utilizationPercent := u2 } := by
    rw [paid_update_util, paid_update_util]
    unfold maxMilesPerDay
    nlinarith
  rw [calculateMetrics_of_pos _ hp1, calculateMetrics_of_pos _ hp2]
  refine ⟨_, _, rfl, rfl, ?_⟩
  have hdiv := div_lt_div_of_pos_left hfix hp1 hpp
  show fixedDailyCost i / paidMilesPerDay { i with utilizationPercent := u2 } +
      i.variableCostPerMile <
    fixedDailyCost i / paidMilesPerDay { i with utilizationPercent := u1 } +
      i.variableCostPerMile
  linarith

/-- Witness for C5: the default preset at utilization 20 versus 40. -/
theorem totalCost_strictAnti_utilization_witness :
    ∃ t1 t2,
      (calculateMetrics { scalingCity with utilizationPercent := 20 }).totalCostPerMile = .ofQ t1
      ∧ (calculateMetrics { scalingCity with utilizationPercent := 40 }).totalCostPerMile = .ofQ t2
      ∧ t2 < t1 :=
  totalCost_strictAnti_utilization scalingCity 20 40
    (by norm_num [InRange, scalingCity]) (by norm_num [InRange, scalingCity])
    (by norm_num)

/-- Claim C6: with all other fields fixed within the data-model ranges,
increasing deadheadPercent (below the 95% cap) strictly increases
totalCostPerMile. -/
theorem totalCost_strictMono_deadhead (i : SimulationInputs) (d1 d2 : ℚ)
    (h1 : InRange { i with deadheadPercent := d1 })
    (h2 : InRange { i with deadheadPercent := d2 })
    (hlt : d1 < d2) :
    ∃ t1 t2,
      (calculateMetrics { i with deadheadPercent := d1 }).totalCostPerMile = .ofQ t1
      ∧ (calculateMetrics { i with deadheadPercent := d2 }).totalCostPerMile = .ofQ t2
      ∧ t1 < t2 := by
  have hfix : 0 < fixedDailyCost i := by
    have := fixedDailyCost_pos { i with deadheadPercent := d1 } h1
    rw [fixed_update_dead] at this
    exact this
  obtain ⟨-, -, -, -, -, -, -, -, hd1lo, hd1hi, -, -, -, -, hu, -⟩ := h1
  obtain ⟨-, -, -, -, -, -, -, -, hd2lo, hd2hi, -, -, -, -, -, -⟩ := h2
  have hd1lo' : (10 : ℚ) ≤ d1 := hd1lo
  have hd1hi' : d1 ≤ 70 := hd1hi
  have hd2lo' : (10 : ℚ) ≤ d2 := hd2lo
  have hd2hi' : d2 ≤ 70 := hd2hi
  have hu' : (10 : ℚ) ≤ i.utilizationPercent := hu
  have hq1 : qmin (d1 / 100) (95 / 100 : ℚ) = d1 / 100 := qmin_of_le (by linarith)
  have hq2 : qmin (d2 / 100) (95 / 100 : ℚ) = d2 / 100 := qmin_of_le (by linarith)
  have hp1 : 0 < paidMilesPerDay { i with deadheadPercent := d1 } := by
    rw [paid_update_dead, hq1]
    unfold maxMilesPerDay
    nlinarith
  have hp2 : 0 < paidMilesPerDay { i with deadheadPercent := d2 } := by
    rw [paid_update_dead, hq2]
    unfold maxMilesPerDay
    nlinarith
  have hpp : paidMilesPerDay { i with deadheadPercent := d2 } <
      paidMilesPerDay { i with deadheadPercent := d1 } := by
    rw [paid_update_dead, paid_update_dead, hq1, hq2]
    unfold maxMilesPerDay
    nlinarith
  rw [calculateMetrics_of_pos _ hp1, calculateMetrics_of_pos _ hp2]
  refine ⟨_, _, rfl, rfl, ?_⟩
  have hdiv := div_lt_div_of_pos_left hfix hp2 hpp
  show fixedDailyCost i / paidMilesPerDay { i with deadheadPercent := d1 } +
      i.variableCostPerMile <
    fixedDailyCost i / paidMilesPerDay { i with deadheadPercent := d2 } +
      i.variableCostPerMile
  linarith

/-- Witness for C6: the default preset at deadhead 30 versus 50. -/
theorem totalCost_strictMono_deadhead_witness :
    ∃ t1 t2,
      (calculateMetrics { scalingCity with deadheadPercent := 30 }).totalCostPerMile = .ofQ t1
      ∧ (calculateMetrics { scalingCity with deadheadPercent := 50 }).totalCostPerMile = .ofQ t2
      ∧ t1 < t2 :=
  totalCost_strictMono_deadhead scalingCity 30 50
    (by norm_num [InRange, scalingCity]) (by norm_num [InRange, scalingCity])
    (by norm_num)

-- Structure of the swept x values: the loop produces an arithmetic chain.

lemma sweepValues_chain (s : ℚ) :
    ∀ (fuel : Nat) (value hi : ℚ),
      (sweepValues fuel value hi s).Chain' (fun a b => b = a + s) := by
  intro fuel
  induction fuel with
  | zero =>
    intro value hi
    simp [sweepValues]
  | succ n ih =>
    intro value hi
    simp only [sweepValues]
    split_ifs with h
    · rw [List.chain'_cons']
      refine ⟨?_, ih (value + s) hi⟩
      intro y hy
      cases n with
      | zero => simp [sweepValues] at hy
      | succ m =>
        simp only [sweepValues] at hy
        split_ifs at hy
        · simp only [List.head?_cons, Option.mem_def, Option.some.injEq] at hy
          exact hy.symm
        · simp at hy
    · exact List.chain'_nil

lemma step_pos (v : XAxisVariable) : 0 < (sweepRange v).step := by
  cases v <;> norm_num [sweepRange]

lemma chartData_map_x (i : SimulationInputs) (v : XAxisVariable) :
    (chartData i v).map DataPoint.x =
      sweepValues 52 (sweepRange v).lo (sweepRange v).hi (sweepRange v).step := by
  unfold chartData
  rw [List.map_map]
  exact List.map_id _

lemma chartData_chain_step (i : SimulationInputs) (v : XAxisVariable) :
    ((chartData i v).map DataPoint.x).Chain'
      (fun a b => b = a + (sweepRange v).step) := by
  rw [chartData_map_x]
  exact sweepValues_chain _ 52 _ _

/-- The x value of the last sample the loop emits for each variable: the
largest grid point lo + k*step that is ≤ hi. -/
def lastSweepValue : XAxisVariable → ℚ
  | .utilization => 90
  | .deadhead => 70
  | .vehiclesPerOperator => 59

lemma sweepValues_head (fuel : Nat) (value hi s : ℚ) (h : value ≤ hi) :
    (sweepValues (fuel + 1) value hi s).head? = some value := by
  simp only [sweepValues]
  rw [if_pos h]
  rfl

set_option maxHeartbeats 1000000 in
lemma sweep_util_last : (sweepValues 52 10 90 2).getLast? = some 90 := by
  norm_num [sweepValues]

set_option maxHeartbeats 1000000 in
lemma sweep_dead_last : (sweepValues 52 10 70 (3 / 2)).getLast? = some 70 := by
  norm_num [sweepValues]

set_option maxHeartbeats 1000000 in
lemma sweep_vpo_last : (sweepValues 52 2 60 (3 / 2)).getLast? = some 59 := by
  norm_num [sweepValues]

set_option maxHeartbeats 1000000 in
lemma sweep_vpo_not60 : ¬ ((60 : ℚ) ∈ sweepValues 52 2 60 (3 / 2)) := by
  norm_num [sweepValues]

/-- Counterexample for C7: sweeping vehicles-per-operator (min 2, max 60,
step 1.5) the loop's last sample is at x = 59; no sample is emitted at the
range maximum 60, so the generated sequence does not include a final sample
at max. -/
theorem chartData_grid_cex :
    ((chartData scalingCity XAxisVariable.vehiclesPerOperator).map DataPoint.x).getLast? =
      some 59
    ∧ ¬ ((60 : ℚ) ∈
        (chartData scalingCity XAxisVariable.vehiclesPerOperator).map DataPoint.x)
    ∧ (sweepRange XAxisVariable.vehiclesPerOperator).hi = 60 := by
  refine ⟨?_, ?_, by norm_num [sweepRange]⟩
  · rw [chartData_map_x]
    simp only [sweepRange]
    exact sweep_vpo_last
  · rw [chartData_map_x]
    simp only [sweepRange]
    exact sweep_vpo_not60

/-- Claim C7 as amended: for every inputs record and swept variable the
sampled sequence starts at the range minimum, consecutive x values differ by
exactly the step, the final sample is at the largest grid point not above
max (which equals max for utilization and deadhead but is 59 < 60 for
vehicles-per-operator), and every sample's displayed cost is the
totalCostPerMile of `calculateMetrics` on the inputs with the swept value
substituted, capped at 10. -/
theorem chartData_grid (i : SimulationInputs) (v : XAxisVariable) :
    ((chartData i v).map DataPoint.x).head? = some (sweepRange v).lo
    ∧ ((chartData i v).map DataPoint.x).Chain' (fun a b => b = a + (sweepRange v).step)
    ∧ ((chartData i v).map DataPoint.x).getLast? = some (lastSweepValue v)
    ∧ (∀ pt ∈ chartData i v,
        pt.totalCostPerMile =
          ((calculateMetrics (substituteSwept v pt.x i)).totalCostPerMile).minQ 10) := by
  refine ⟨?_, chartData_chain_step i v, ?_, ?_⟩
  · rw [chartData_map_x]
    cases v <;> simp only [sweepRange] <;> exact sweepValues_head 51 _ _ _ (by norm_num)
  · rw [chartData_map_x]
    cases v with
    | utilization =>
      simp only [sweepRange, lastSweepValue]
      exact sweep_util_last
    | deadhead =>
      simp only [sweepRange, lastSweepValue]
      exact sweep_dead_last
    | vehiclesPerOperator =>
      simp only [sweepRange, lastSweepValue]
      exact sweep_vpo_last
  · intro pt hpt
    unfold chartData at hpt
    rw [List.mem_map] at hpt
    obtain ⟨value, -, rfl⟩ := hpt
    rfl

set_option maxHeartbeats 1000000 in
/-- Witness for C7: the first sample of the utilization sweep at the default
preset is at x = 10 and displays the capped cost min(totalCostPerMile, 10) =
10 there. -/
theorem chartData_grid_witness :
    ({ x := 10, totalCostPerMile := ExtQ.ofQ 10, isCurrentPoint := false } :
        DataPoint).totalCostPerMile =
      ((calculateMetrics
        (substituteSwept XAxisVariable.utilization 10 scalingCity)).totalCostPerMile).minQ
        10 :=
  (chartData_grid scalingCity XAxisVariable.utilization).2.2.2
    { x := 10, totalCostPerMile := ExtQ.ofQ 10, isCurrentPoint := false }
    (by
      simp only [chartData, sweepRange]
      refine List.mem_map.mpr ⟨10, ?_, ?_⟩
      · norm_num [sweepValues]
      · norm_num [calculateMetrics, substituteSwept, liveValue, ExtQ.minQ, qmin,
          paidMilesPerDay, milesPerDay, utilizationDecimal, deadheadDecimal,
          fixedDailyCost, vehicleCostPerDay, teleopsAndOpsPerDay,
          operatorCostPerHour, vehicleLifetimeDays, maxMilesPerDay, scalingCity])

-- Separation of the sampled x values and uniqueness of the current-point
-- flag.

lemma sweepValues_pairwise_sep (s : ℚ) (hs : 0 < s) (fuel : Nat) (value hi : ℚ) :
    (sweepValues fuel value hi s).Pairwise (fun a b => s ≤ |a - b|) := by
  have hc : (sweepValues fuel value hi s).Chain' (fun a b => a + s ≤ b) :=
    (sweepValues_chain s fuel value hi).imp (fun a b h => le_of_eq h.symm)
  haveI : IsTrans ℚ (fun a b => a + s ≤ b) :=
    ⟨fun a b c hab hbc => by linarith⟩
  have hp : (sweepValues fuel value hi s).Pairwise (fun a b => a + s ≤ b) :=
    List.chain'_iff_pairwise.mp hc
  refine hp.imp ?_
  intro a b h
  rw [abs_sub_comm, abs_of_nonneg (by linarith)]
  linarith

lemma countP_window_le_one (L s : ℚ) (hs : 0 < s) :
    ∀ l : List ℚ, l.Pairwise (fun a b => s ≤ |a - b|) →
      l.countP (fun x => decide (|x - L| < s / 2)) ≤ 1 := by
  intro l
  induction l with
  | nil => intro h; simp
  | cons a t ih =>
    intro hp
    rw [List.pairwise_cons] at hp
    rw [List.countP_cons]
    by_cases ha : |a - L| < s / 2
    · have ht : t.countP (fun x => decide (|x - L| < s / 2)) = 0 := by
        rw [List.countP_eq_zero]
        intro x hx
        simp only [decide_eq_true_eq]
        intro hxL
        have hsep := hp.1 x hx
        have htri : |a - x| ≤ |a - L| + |x - L| := by
          calc |a - x| ≤ |a - L| + |L - x| := abs_sub_le a L x
            _ = |a - L| + |x - L| := by rw [abs_sub_comm L x]
        linarith
      rw [ht, if_pos (by simpa using ha)]
    · rw [if_neg (by simpa using ha)]
      simpa using ih hp.2

lemma chartData_countP (i : SimulationInputs) (v : XAxisVariable) :
    (chartData i v).countP (fun pt => pt.isCurrentPoint) =
      (sweepValues 52 (sweepRange v).lo (sweepRange v).hi
        (sweepRange v).step).countP
        (fun value => decide (|value - liveValue v i| < (sweepRange v).step / 2)) := by
  unfold chartData
  rw [List.countP_map]
  rfl

/-- Claim C8: for every inputs record and swept variable the sampled
sequence is strictly increasing in x, never carries more than one
isCurrentPoint flag, and carries exactly one when the live value of the
swept variable equals the x of some emitted sample. -/
theorem chartData_flags (i : SimulationInputs) (v : XAxisVariable) :
    ((chartData i v).map DataPoint.x).Chain' (· < ·)
    ∧ (chartData i v).countP (fun pt => pt.isCurrentPoint) ≤ 1
    ∧ (liveValue v i ∈ (chartData i v).map DataPoint.x →
      (chartData i v).countP (fun pt => pt.isCurrentPoint) = 1) := by
  have hstep : 0 < (sweepRange v).step := step_pos v
  have hchain := chartData_chain_step i v
  have hlt : ((chartData i v).map DataPoint.x).Chain' (· < ·) := by
    refine hchain.imp ?_
    intro a b h
    rw [h]
    linarith
  have hsep := sweepValues_pairwise_sep (sweepRange v).step hstep 52
    (sweepRange v).lo (sweepRange v).hi
  have hle : (chartData i v).countP (fun pt => pt.isCurrentPoint) ≤ 1 := by
    rw [chartData_countP]
    exact countP_window_le_one (liveValue v i) _ hstep _ hsep
  refine ⟨hlt, hle, fun hmem => ?_⟩
  rw [chartData_map_x] at hmem
  have hpos : 0 < (chartData i v).countP (fun pt => pt.isCurrentPoint) := by
    rw [chartData_countP, List.countP_pos_iff]
    refine ⟨liveValue v i, hmem, ?_⟩
    simp only [sub_self, abs_zero, decide_eq_true_eq]
    linarith
  omega

set_option maxHeartbeats 1000000 in
/-- Witness for C8: at the default preset the live utilization 40 lies on
the sampled grid, so exactly one sample is flagged. -/
theorem chartData_flags_witness :
    ((chartData scalingCity XAxisVariable.utilization).map DataPoint.x).Chain' (· < ·)
    ∧ (chartData scalingCity XAxisVariable.utilization).countP
        (fun pt => pt.isCurrentPoint) ≤ 1
    ∧ (chartData scalingCity XAxisVariable.utilization).countP
        (fun pt => pt.isCurrentPoint) = 1 := by
  obtain ⟨h1, h2, h3⟩ := chartData_flags scalingCity XAxisVariable.utilization
  refine ⟨h1, h2, h3 ?_⟩
  rw [chartData_map_x]
  simp only [sweepRange, liveValue, scalingCity]
  norm_num [sweepValues]
